import Mathlib

/-!
Verification of the deictic-void cognitive-training game core
(`src/src/RelationalChain.tsx`).  The TypeScript source is shallowly
embedded below: pure functions become Lean functions, the randomized
level generator is parameterized by an explicit oracle of random draws,
and the React state transitions are modelled as functions on an explicit
game-state record.  JS numbers that stay integral are `Int`; fractional
quantities (stability, multiplier, timer) are `Rat`.
-/

namespace DeicticVoid

/-- Directions: four body-fixed (relative) and four world-fixed (cardinal),
from the `RelativeDir`/`CardinalDir` union types in the source. -/
inductive Direction where
  | FRONT | BACK | LEFT | RIGHT
  | NORTH | SOUTH | EAST | WEST
deriving DecidableEq, Fintype

/-- Execution protocol of an instruction (`ProtocolType` in the source). -/
inductive ProtocolType where
  | DIRECT | INVERTED
deriving DecidableEq, Fintype

/-- Reference frame of an instruction (`FrameType` in the source). -/
inductive FrameType where
  | RELATIVE | ABSOLUTE
deriving DecidableEq, Fintype

/-- A grid displacement, the `{dx, dy}` record returned by `getVector`. -/
structure Vec where
  dx : Int
  dy : Int
deriving DecidableEq

/-- JavaScript `%` on integers is the truncated-division remainder. -/
def jsMod (n m : Int) : Int := Int.tmod n m

/-- `safeMod` from the source: `((n % m) + m) % m` with the JS `%`. -/
def safeMod (n m : Int) : Int := jsMod (jsMod n m + m) m

/-- `getVector(rotation, dir)` from the source: cardinals are fixed unit
vectors; body-fixed directions add an angular offset to the rotation,
reduce with `safeMod 360`, and map the four right angles to unit
vectors, with `(0,0)` as the terminal fallback. -/
def getVector (rotation : Int) (dir : Direction) : Vec :=
  match dir with
  | .NORTH => ⟨0, -1⟩
  | .SOUTH => ⟨0, 1⟩
  | .EAST => ⟨1, 0⟩
  | .WEST => ⟨-1, 0⟩
  | _ =>
    let angleOffset : Int :=
      match dir with
      | .RIGHT => 90
      | .BACK => 180
      | .LEFT => 270
      | _ => 0
    let finalAngle := safeMod (rotation + angleOffset) 360
    if finalAngle = 0 then ⟨0, -1⟩
    else if finalAngle = 90 then ⟨1, 0⟩
    else if finalAngle = 180 then ⟨0, 1⟩
    else if finalAngle = 270 then ⟨-1, 0⟩
    else ⟨0, 0⟩

/-- `getOpposite(dir)` from the source. -/
def getOpposite : Direction → Direction
  | .NORTH => .SOUTH
  | .SOUTH => .NORTH
  | .EAST => .WEST
  | .WEST => .EAST
  | .FRONT => .BACK
  | .BACK => .FRONT
  | .LEFT => .RIGHT
  | .RIGHT => .LEFT

/-- The four rotations actually sampled by the generator. -/
def Rots : List Int := [0, 90, 180, 270]

/-- The body-fixed (relative) directions. -/
def isBodyFixed : Direction → Bool
  | .FRONT | .BACK | .LEFT | .RIGHT => true
  | _ => false

/-- A displacement is a unit step along exactly one axis. -/
def isUnitVec (v : Vec) : Prop :=
  (v.dx = 0 ∧ (v.dy = 1 ∨ v.dy = -1)) ∨ (v.dy = 0 ∧ (v.dx = 1 ∨ v.dx = -1))

instance (v : Vec) : Decidable (isUnitVec v) := by
  unfold isUnitVec; infer_instance

/-- One instruction card (`CommandStep` in the source). -/
structure CommandStep where
  dir : Direction
  frame : FrameType
  protocol : ProtocolType
  id : String
  displayColor : String
deriving DecidableEq

/-- `COLORS.direct` from the source. -/
def directColor : String := "#00ff9d"

/-- `COLORS.inverted` from the source. -/
def invertedColor : String := "#ff3366"

/-- A grid coordinate. -/
structure Cell where
  x : Int
  y : Int
deriving DecidableEq

/-- The data a round is built from: anchor, rotation, chain and the
target cell stored in `targetPos` by `generateLevel`. -/
structure Puzzle where
  anchor : Cell
  rotation : Int
  chain : List CommandStep
  target : Cell
deriving DecidableEq

/-- The random draws `generateLevel` makes for one chain slot, in source
order: the `Math.random() > 0.6` draw deciding an absolute frame, the
`Math.floor(Math.random() * 4)` draw indexing the direction list (any
natural, used modulo 4), the `Math.random() > 0.6` draw deciding an
inverted protocol, the two `Math.random() > 0.5` interference draws,
and the random id string. -/
structure StepChoice where
  absRand : Bool
  dirR : Nat
  invRand : Bool
  interfOn : Bool
  interfPick : Bool
  idStr : String

/-- The random draws of one attempt of the generator's search loop: the
anchor coordinate draws (used modulo `safeSize`), the rotation draw
(used modulo 4), and the per-slot draws. -/
structure AttemptChoice where
  axR : Nat
  ayR : Nat
  rotR : Nat
  step : Nat → StepChoice

/-- `GRID_SIZE` from the source. -/
def GRID_SIZE : Int := 7

/-- Result of the inner `for` loop of one generation attempt. -/
structure ChainResult where
  chain : List CommandStep
  x : Int
  y : Int
  pathFailed : Bool

/-- `['FRONT','BACK','LEFT','RIGHT']` from the source. -/
def relativeDirs : List Direction := [.FRONT, .BACK, .LEFT, .RIGHT]

/-- `['NORTH','SOUTH','EAST','WEST']` from the source. -/
def absoluteDirs : List Direction := [.NORTH, .SOUTH, .EAST, .WEST]

/-- The inner `for` loop of `generateLevel`: builds `chainLength` steps
starting at slot `i` from position `(x, y)`, accumulating the resolved
displacement of each step and stopping with `pathFailed` as soon as the
accumulated position leaves the grid. -/
def buildChain (rot : Int) (allowInversion allowAbsolute allowInterference : Bool)
    (step : Nat → StepChoice) (i : Nat) (remaining : Nat) (x y : Int) : ChainResult :=
  match remaining with
  | 0 => ⟨[], x, y, false⟩
  | r + 1 =>
    let sc := step i
    let isAbsolute := allowAbsolute && sc.absRand
    let frame : FrameType := if isAbsolute then .ABSOLUTE else .RELATIVE
    let rawDir : Direction :=
      if isAbsolute then absoluteDirs.getD (sc.dirR % 4) .NORTH
      else relativeDirs.getD (sc.dirR % 4) .FRONT
    let protocol : ProtocolType := if allowInversion && sc.invRand then .INVERTED else .DIRECT
    let logicDir := if protocol = .INVERTED then getOpposite rawDir else rawDir
    let vec := getVector rot logicDir
    let x2 := x + vec.dx
    let y2 := y + vec.dy
    let baseColor := if protocol = .DIRECT then directColor else invertedColor
    let displayColor :=
      if allowInterference && sc.interfOn then
        (if sc.interfPick then invertedColor else directColor)
      else baseColor
    let cs : CommandStep := ⟨rawDir, frame, protocol, sc.idStr, displayColor⟩
    if x2 < 0 ∨ GRID_SIZE ≤ x2 ∨ y2 < 0 ∨ GRID_SIZE ≤ y2 then
      ⟨[cs], x2, y2, true⟩
    else
      let rest := buildChain rot allowInversion allowAbsolute allowInterference step (i + 1) r x2 y2
      ⟨cs :: rest.chain, rest.x, rest.y, rest.pathFailed⟩

/-- Chain length by level tier, from `generateLevel`. -/
def chainLengthFor (level : Int) : Nat :=
  if level < 5 then 1 else if level < 10 then 2 else if level < 15 then 3 else 4

/-- The `padding` local of one attempt: edge padding scaled to chain
length. -/
def paddingFor (level : Int) : Nat :=
  if chainLengthFor level > 1 then (if chainLengthFor level > 3 then 2 else 1) else 0

/-- The `safeSize` local of one attempt: `GRID_SIZE - padding * 2`. -/
def safeSizeFor (level : Int) : Nat := 7 - paddingFor level * 2

/-- One iteration of `generateLevel`'s `while` loop: samples an anchor
inside the padded safe area, a rotation, and a chain, and accepts the
candidate when no accumulated position left the grid and the final
position differs from the anchor. -/
def runAttempt (level : Int) (c : AttemptChoice) : Option Puzzle :=
  let chainLength := chainLengthFor level
  let allowInversion := decide (4 ≤ level)
  let allowAbsolute := decide (7 ≤ level)
  let allowInterference := decide (12 ≤ level)
  let padding : Nat := paddingFor level
  let safeSize : Nat := safeSizeFor level
  let ax : Int := (c.axR % safeSize : Nat) + (padding : Int)
  let ay : Int := (c.ayR % safeSize : Nat) + (padding : Int)
  let rot : Int := (c.rotR % 4 : Nat) * 90
  let res := buildChain rot allowInversion allowAbsolute allowInterference c.step 0 chainLength ax ay
  if res.pathFailed = false ∧ (res.x ≠ ax ∨ res.y ≠ ay) then
    some ⟨⟨ax, ay⟩, rot, res.chain, ⟨res.x, res.y⟩⟩
  else none

/-- The deterministic failsafe puzzle built when the attempt cap is
exhausted: anchor (3,3), rotation 0, one DIRECT/ABSOLUTE NORTH
instruction, target (3,2). -/
def failsafePuzzle : Puzzle :=
  ⟨⟨3, 3⟩, 0, [⟨.NORTH, .ABSOLUTE, .DIRECT, "failsafe", directColor⟩], ⟨3, 2⟩⟩

/-- `MAX_ATTEMPTS` from the source. -/
def MAX_ATTEMPTS : Nat := 500

/-- The `while (!valid && attempts < MAX_ATTEMPTS)` loop: consumes one
attempt's draws per iteration, returning the first accepted candidate. -/
def genLoop (level : Int) (oracle : Nat → AttemptChoice) (i fuel : Nat) : Option Puzzle :=
  match fuel with
  | 0 => none
  | f + 1 =>
    match runAttempt level (oracle i) with
    | some p => some p
    | none => genLoop level oracle (i + 1) f

/-- `generateLevel(level)`, parameterized by the oracle of random draws:
runs the bounded search and falls back to the failsafe puzzle when all
`MAX_ATTEMPTS` attempts are rejected. -/
def generateLevel (level : Int) (oracle : Nat → AttemptChoice) : Puzzle :=
  (genLoop level oracle 0 MAX_ATTEMPTS).getD failsafePuzzle

/-- The displacement an instruction resolves to during play: invert the
raw direction iff the protocol is INVERTED, then apply `getVector`
(mirrors the `logicDir`/`vec` computation in the generator). -/
def stepVec (rot : Int) (s : CommandStep) : Vec :=
  getVector rot (if s.protocol = .INVERTED then getOpposite s.dir else s.dir)

/-- The prefix-sum positions of a chain: the position reached after each
instruction, starting from `(x, y)`. -/
def pathPositions (rot : Int) (x y : Int) : List CommandStep → List (Int × Int)
  | [] => []
  | s :: rest =>
    let v := stepVec rot s
    (x + v.dx, y + v.dy) :: pathPositions rot (x + v.dx) (y + v.dy) rest

/-- Membership in the 7x7 grid. -/
def inGrid (q : Int × Int) : Prop :=
  0 ≤ q.1 ∧ q.1 < GRID_SIZE ∧ 0 ≤ q.2 ∧ q.2 < GRID_SIZE

instance (q : Int × Int) : Decidable (inGrid q) := by
  unfold inGrid; infer_instance

/-- An oracle all of whose attempts are rejected at level 1: the anchor
is (0,0) and the single DIRECT FRONT step at rotation 0 leaves the grid
upward. -/
def failOracle : Nat → AttemptChoice :=
  fun _ => ⟨0, 0, 0, fun _ => ⟨false, 0, false, false, false, ""⟩⟩

/-- Round outcome passed to `updateAnalytics` (`'win' | 'loss'`). -/
inductive Outcome where
  | win | loss
deriving DecidableEq

/-- Per-tag counters (`MetricData` in the source). -/
structure MetricData where
  attempts : Nat
  failures : Nat
deriving DecidableEq

/-- The `tags: Record<string, MetricData>` map, embedded as a total
function whose default entry is the zero record (the source lazily
initializes an absent key to `{attempts: 0, failures: 0}` before each
increment, which is observationally the same). -/
abbrev TagMap := String → MetricData

/-- The all-zero tag map (an empty `Record`). -/
def zeroTags : TagMap := fun _ => ⟨0, 0⟩

/-- One entry of `analytics.sessions`. -/
structure SessionEntry where
  timestamp : Int
  maxLevel : Int
  score : Int
deriving DecidableEq

/-- Game status union from the source `GameState`. -/
inductive GameStatus where
  | idle | playing | gameover | level_up | level_down | success_anim | analytics
deriving DecidableEq

/-- The source `GameState` record.  `currentLevel`, `maxLevel` and
`score` stay integral in the source (score is floored on every update),
so they are `Int`; `stability` and `multiplier` take fractional values
and are `Rat`. -/
structure GState where
  status : GameStatus
  currentLevel : Int
  stability : Rat
  maxLevel : Int
  score : Int
  multiplier : Rat
  streak : Nat
  soundEnabled : Bool
  isPracticeMode : Bool
  tags : TagMap
  sessions : List SessionEntry
  sessionCorrect : Nat
  sessionTotal : Nat

/-- The initial `useState` value of the game state. -/
def initialState : GState :=
  ⟨.idle, 1, 50, 1, 0, 1, 0, true, false, zeroTags, [], 0, 0⟩

/-- The string value of a protocol, used directly as a tag key
(`protoKey` in `updateAnalytics`). -/
def protoKey : ProtocolType → String
  | .DIRECT => "DIRECT"
  | .INVERTED => "INVERTED"

/-- The string value of a frame, used directly as a tag key
(`frameKey` in `updateAnalytics`). -/
def frameKey : FrameType → String
  | .RELATIVE => "RELATIVE"
  | .ABSOLUTE => "ABSOLUTE"

/-- The string value of a direction. -/
def dirName : Direction → String
  | .FRONT => "FRONT"
  | .BACK => "BACK"
  | .LEFT => "LEFT"
  | .RIGHT => "RIGHT"
  | .NORTH => "NORTH"
  | .SOUTH => "SOUTH"
  | .EAST => "EAST"
  | .WEST => "WEST"

/-- The compound tag key `` `${step.protocol} ${step.dir}` `` from
`updateAnalytics`. -/
def complexKey (p : ProtocolType) (d : Direction) : String :=
  protoKey p ++ " " ++ dirName d

/-- Increment one tag entry: attempts always, failures on a loss
(the `newTags[key].attempts++` / `failures++` pattern). -/
def bumpTag (m : TagMap) (key : String) (result : Outcome) : TagMap :=
  fun q =>
    if q = key then
      ⟨(m key).attempts + 1, (m key).failures + (if result = .loss then 1 else 0)⟩
    else m q

/-- The per-instruction body of `chain.forEach` in `updateAnalytics`:
bump the protocol key, the frame key, then the compound key. -/
def recordStep (result : Outcome) (m : TagMap) (s : CommandStep) : TagMap :=
  bumpTag (bumpTag (bumpTag m (protoKey s.protocol) result) (frameKey s.frame) result)
    (complexKey s.protocol s.dir) result

/-- The full `chain.forEach` loop of `updateAnalytics`. -/
def recordChain (result : Outcome) (m : TagMap) (chain : List CommandStep) : TagMap :=
  chain.foldl (recordStep result) m

/-- The three tag keys one instruction is recorded under. -/
def stepKeys (s : CommandStep) : List String :=
  [protoKey s.protocol, frameKey s.frame, complexKey s.protocol s.dir]

/-- `updateAnalytics(result)` from the source: the early return in
practice mode leaves the tags alone, otherwise the current chain is
folded into the tag counters; nothing but `analytics.tags` changes. -/
def updateAnalytics (result : Outcome) (chain : List CommandStep) (g : GState) : GState :=
  { g with tags := if g.isPracticeMode then g.tags else recordChain result g.tags chain }

/-- `recordSession()` from the source: appends a session entry when the
score exceeds 100 outside practice mode; nothing but
`analytics.sessions` changes. -/
def recordSession (now : Int) (g : GState) : GState :=
  { g with sessions :=
      if 100 < g.score ∧ g.isPracticeMode = false then
        g.sessions ++ [⟨now, g.currentLevel, g.score⟩]
      else g.sessions }

/-- `handleSuccess()` composed with its scheduled follow-up transitions
(the `setTimeout` chain), i.e. the state once the round has settled back
to `playing`: analytics, reward, stability gain with the level-up branch,
streak/multiplier/session-counter updates, then the deferred
`currentLevel`/`maxLevel` update. -/
def handleSuccess (timer : Rat) (chain : List CommandStep) (g0 : GState) : GState :=
  let g := updateAnalytics .win chain g0
  let timeBonus : Int := timer.floor
  let points : Rat := (100 + (timeBonus : Rat)) * g.multiplier + (g.currentLevel : Rat) * 50
  let stabilityGain : Rat := if g.isPracticeMode then 0 else 15
  let s1 : Rat := g.stability + stabilityGain
  let lvlUp : Bool := !g.isPracticeMode && decide (100 ≤ s1)
  let newStability : Rat := if lvlUp then 50 else if 100 < s1 then 100 else s1
  let nextLevel : Int := if lvlUp then g.currentLevel + 1 else g.currentLevel
  { g with
    status := .playing
    score := if g.isPracticeMode then g.score else ((g.score : Rat) + points).floor
    stability := newStability
    streak := g.streak + 1
    multiplier := min (g.multiplier + 1/2) 5
    sessionCorrect := if g.isPracticeMode then g.sessionCorrect else g.sessionCorrect + 1
    sessionTotal := if g.isPracticeMode then g.sessionTotal else g.sessionTotal + 1
    currentLevel := nextLevel
    maxLevel := max g.maxLevel nextLevel }

/-- `handleFailure()` composed with its scheduled follow-up transitions,
i.e. the state once the round has settled back to `playing`: analytics,
stability loss with the level-down branch and the level-1 recovery
floor, multiplier/streak reset, then the deferred `currentLevel`
update. -/
def handleFailure (chain : List CommandStep) (g0 : GState) : GState :=
  let g := updateAnalytics .loss chain g0
  let stabilityLoss : Rat := if g.isPracticeMode then 0 else 30
  let s1 : Rat := g.stability - stabilityLoss
  let dropOut : Bool := !g.isPracticeMode && decide (s1 ≤ 0)
  let lvlDown : Bool := dropOut && decide (1 < g.currentLevel)
  let newStability : Rat :=
    if dropOut then (if 1 < g.currentLevel then 50 else 20)
    else if s1 < 0 then 0 else s1
  let nextLevel : Int := if lvlDown then g.currentLevel - 1 else g.currentLevel
  { g with
    status := .playing
    multiplier := 1
    streak := 0
    stability := newStability
    sessionTotal := if g.isPracticeMode then g.sessionTotal else g.sessionTotal + 1
    currentLevel := nextLevel }

/-- `startGame()` from the source (puzzle generation writes the separate
puzzle state, not this record; the stray `history: []` property has no
field in `GameState` and is dropped by the type). -/
def startGame (g : GState) : GState :=
  { g with status := .playing, multiplier := 1, streak := 0,
           sessionCorrect := 0, sessionTotal := 0 }

/-- `stopGame()` from the source: record the session, then game over. -/
def stopGame (now : Int) (g : GState) : GState :=
  { recordSession now g with status := .gameover }

/-- `togglePracticeMode()` from the source (the immediate puzzle
regeneration writes the separate puzzle state). -/
def togglePracticeMode (g : GState) : GState :=
  { g with isPracticeMode := !g.isPracticeMode }

/-- Whitespace skipped by `parseInt` before parsing. -/
def isWs (c : Char) : Bool :=
  c = ' ' ∨ c = '\t' ∨ c = '\n' ∨ c = '\r'

/-- Decimal digit value. -/
def digitVal (c : Char) : Option Nat :=
  if '0' ≤ c ∧ c ≤ '9' then some (c.toNat - '0'.toNat) else none

/-- Hexadecimal digit value. -/
def hexVal (c : Char) : Option Nat :=
  if '0' ≤ c ∧ c ≤ '9' then some (c.toNat - '0'.toNat)
  else if 'a' ≤ c ∧ c ≤ 'f' then some (c.toNat - 'a'.toNat + 10)
  else if 'A' ≤ c ∧ c ≤ 'F' then some (c.toNat - 'A'.toNat + 10)
  else none

/-- Accumulate the value of the maximal digit run at the head. -/
def digitsValue (base : Nat) (val : Char → Option Nat) : List Char → Nat → Nat
  | [], acc => acc
  | c :: rest, acc =>
    match val c with
    | some d => digitsValue base val rest (acc * base + d)
    | none => acc

/-- Whether the head character is a digit. -/
def hasDigit (val : Char → Option Nat) : List Char → Bool
  | [] => false
  | c :: _ => (val c).isSome

/-- Unsigned part of `parseInt`: an optional `0x`/`0X` hex literal,
otherwise a decimal digit run; `none` models NaN. -/
def jsParseIntCore (cs : List Char) : Option Nat :=
  match cs with
  | '0' :: 'x' :: rest =>
    if hasDigit hexVal rest then some (digitsValue 16 hexVal rest 0) else none
  | '0' :: 'X' :: rest =>
    if hasDigit hexVal rest then some (digitsValue 16 hexVal rest 0) else none
  | _ => if hasDigit digitVal cs then some (digitsValue 10 digitVal cs 0) else none

/-- Modelled from ECMAScript `parseInt(string)` with no radix argument,
as called by `manualSetLevel`: skip leading whitespace, read an optional
sign, then the maximal digit prefix (hex after `0x`), ignoring any
trailing garbage; `none` models NaN. -/
def jsParseInt (s : String) : Option Int :=
  let cs := s.data.dropWhile isWs
  match cs with
  | '-' :: rest => (jsParseIntCore rest).map (fun n => -(n : Int))
  | '+' :: rest => (jsParseIntCore rest).map (fun n => (n : Int))
  | _ => (jsParseIntCore cs).map (fun n => (n : Int))

/-- `manualSetLevel()` from the source, with the `prompt` result as an
explicit input (`none` models a cancelled prompt): a falsy (empty)
input, a NaN parse, or a parsed value outside `0 < lvl < 100` leaves
the state unchanged; otherwise the level is set (and the score reset). -/
def manualSetLevel (input : Option String) (g : GState) : GState :=
  match input with
  | none => g
  | some s =>
    if s = "" then g
    else
      match jsParseInt s with
      | none => g
      | some lvl =>
        if 0 < lvl ∧ lvl < 100 then
          { g with currentLevel := lvl, maxLevel := max g.maxLevel lvl, score := 0 }
        else g

/-- A success or failure event resolved while playing: a success carries
the remaining timer percentage, both carry the recorded chain. -/
inductive GameEvent where
  | success (timer : Rat) (chain : List CommandStep)
  | failure (chain : List CommandStep)

/-- Apply one success/failure event. -/
def applyEvent : GameEvent → GState → GState
  | .success t ch, g => handleSuccess t ch g
  | .failure ch, g => handleFailure ch g

/-- Apply a sequence of success/failure events in order. -/
def applyEvents (evs : List GameEvent) (g : GState) : GState :=
  evs.foldl (fun g e => applyEvent e g) g

/-- Every state-machine transition named by the spec (level up and level
down are the deferred phases inside success and failure). -/
inductive Transition where
  | start
  | stop (now : Int)
  | toggle
  | success (timer : Rat) (chain : List CommandStep)
  | failure (chain : List CommandStep)

/-- Apply one transition. -/
def applyTransition : Transition → GState → GState
  | .start, g => startGame g
  | .stop now, g => stopGame now g
  | .toggle, g => togglePracticeMode g
  | .success t ch, g => handleSuccess t ch g
  | .failure ch, g => handleFailure ch g

/-- The bounds the spec demands after every transition. -/
def Invariant (g : GState) : Prop :=
  0 ≤ g.stability ∧ g.stability ≤ 100 ∧
  1 ≤ g.multiplier ∧ g.multiplier ≤ 5 ∧
  1 ≤ g.currentLevel

instance (g : GState) : Decidable (Invariant g) := by
  unfold Invariant; infer_instance

/-- Timer decay per 50 ms tick: `0.25 + currentLevel * 0.04`. -/
def decayFor (level : Int) : Rat := 1/4 + (level : Rat) * (1/25)

/-- The state read by the countdown interval: the timer value, the
`failureHandled` ref, and the game state it mutates through
`handleFailure`. -/
structure LoopState where
  timer : Rat
  failureHandled : Bool
  game : GState

/-- One `setInterval` tick of the game loop: at or below zero, invoke
`handleFailure` only if the `failureHandled` guard is still clear and
set it; otherwise decay the timer. -/
def timerTick (decay : Rat) (chain : List CommandStep) (s : LoopState) : LoopState :=
  if s.timer ≤ 0 then
    if s.failureHandled = false then ⟨0, true, handleFailure chain s.game⟩
    else ⟨0, s.failureHandled, s.game⟩
  else ⟨s.timer - decay, s.failureHandled, s.game⟩

/-- Iterate the game-loop tick `n` times. -/
def timerTicks (decay : Rat) (chain : List CommandStep) : Nat → LoopState → LoopState
  | 0, s => s
  | n + 1, s => timerTicks decay chain n (timerTick decay chain s)

/-- The failsafe instruction, reused as a sample one-step chain. -/
def fsStep : CommandStep := ⟨.NORTH, .ABSOLUTE, .DIRECT, "failsafe", directColor⟩

/-- A concrete mid-session playing state used to instantiate theorems. -/
def baseState : GState :=
  { initialState with status := .playing, currentLevel := 3, stability := 50 }

/-- The same playing state with practice mode on. -/
def practiceState : GState :=
  { baseState with isPracticeMode := true }

/-- Truncated remainder negates with its dividend. -/
theorem tmod_neg_dividend (a b : Int) : (-a).tmod b = -(a.tmod b) := by
  rw [Int.tmod_def, Int.tmod_def, Int.neg_tdiv]; ring

/-- The truncated remainder by 360 lies strictly between -360 and 360. -/
theorem tmod360_bounds (n : Int) : -360 < n.tmod 360 ∧ n.tmod 360 < 360 := by
  refine ⟨?_, Int.tmod_lt_of_pos n (by norm_num)⟩
  rcases le_or_lt 0 n with h | h
  · have := Int.tmod_nonneg (360 : Int) h; linarith
  · have hrw : n.tmod 360 = -((-n).tmod 360) := by
      have h2 := tmod_neg_dividend (-n) 360
      rw [neg_neg] at h2
      omega
    have := Int.tmod_lt_of_pos (-n) (show (0:Int) < 360 by norm_num)
    omega

/-- The truncated remainder is congruent to the dividend. -/
theorem tmod360_emod (n : Int) : n.tmod 360 % 360 = n % 360 := by
  conv_rhs => rw [← Int.tmod_add_tdiv n 360]
  rw [Int.add_mul_emod_self_left]

/-- `safeMod _ 360` coincides with the always-nonnegative Euclidean
remainder, which is what the source comment promises. -/
theorem safeMod_eq_emod (n : Int) : safeMod n 360 = n % 360 := by
  unfold safeMod jsMod
  have hb := tmod360_bounds n
  have hnn : 0 ≤ n.tmod 360 + 360 := by omega
  rw [Int.tmod_eq_emod hnn (by norm_num)]
  have h1 : (n.tmod 360 + 360) % 360 = n.tmod 360 % 360 := by omega
  rw [h1, tmod360_emod]

/-- `safeMod (r + off) 360` hits a right angle exactly when the rotation
is a multiple of 90, provided the body-frame offset is one. -/
theorem safeMod_right_angle_iff (r off : Int) (hoff : 90 ∣ off) :
    (safeMod (r + off) 360 = 0 ∨ safeMod (r + off) 360 = 90 ∨
     safeMod (r + off) 360 = 180 ∨ safeMod (r + off) 360 = 270) ↔ 90 ∣ r := by
  rw [safeMod_eq_emod]
  omega

/-- The four-way angle dispatch of `getVector` returns the zero vector
exactly when the angle is none of the four right angles. -/
theorem angle_dispatch_zero_iff (fa : Int) :
    ((if fa = 0 then (⟨0, -1⟩ : Vec)
      else if fa = 90 then ⟨1, 0⟩
      else if fa = 180 then ⟨0, 1⟩
      else if fa = 270 then ⟨-1, 0⟩
      else ⟨0, 0⟩) = ⟨0, 0⟩) ↔
    ¬(fa = 0 ∨ fa = 90 ∨ fa = 180 ∨ fa = 270) := by
  split_ifs with h0 h1 h2 h3 <;> simp_all

/-- C7: for every rotation in {0,90,180,270}, getVector maps the four
world-fixed directions to their fixed axis-aligned unit vectors
independently of the rotation; FRONT and BACK (and LEFT and RIGHT)
resolve to opposite vectors; and getOpposite is an involution on all
eight directions. -/
theorem C7_resolver_laws :
    (∀ r ∈ Rots,
      getVector r .NORTH = ⟨0, -1⟩ ∧ getVector r .SOUTH = ⟨0, 1⟩ ∧
      getVector r .EAST = ⟨1, 0⟩ ∧ getVector r .WEST = ⟨-1, 0⟩ ∧
      (getVector r .BACK).dx = -(getVector r .FRONT).dx ∧
      (getVector r .BACK).dy = -(getVector r .FRONT).dy ∧
      (getVector r .RIGHT).dx = -(getVector r .LEFT).dx ∧
      (getVector r .RIGHT).dy = -(getVector r .LEFT).dy) ∧
    (∀ d : Direction, getOpposite (getOpposite d) = d) := by
  decide

/-- C7 witness: the laws at the concrete rotation 90. -/
theorem C7_witness :
    (90 : Int) ∈ Rots ∧ getVector 90 Direction.NORTH = ⟨0, -1⟩ ∧
    getOpposite (getOpposite Direction.LEFT) = Direction.LEFT :=
  ⟨by decide, (C7_resolver_laws.1 90 (by decide)).1,
   C7_resolver_laws.2 Direction.LEFT⟩

/-- C10 counterexample: rotation 360 is outside {0,90,180,270}, yet
getVector on the body-fixed FRONT returns the unit vector (0,-1), not
the zero vector, refuting the claim that the zero vector is the result
for any other rotation with a body-fixed direction. -/
theorem C10_counterexample :
    isBodyFixed Direction.FRONT = true ∧ (360 : Int) ∉ Rots ∧
    getVector 360 Direction.FRONT = ⟨0, -1⟩ ∧
    getVector 360 Direction.FRONT ≠ ⟨0, 0⟩ := by
  decide

/-- C10 (amended): getVector is total; for every rotation in
{0,90,180,270} and every direction it returns a unit vector, so the
zero-vector fallback is unreachable there; and for a body-fixed
direction the zero vector is the silent result exactly when the
rotation is not an integer multiple of 90 (so rotations like 360 or
-90 still give unit vectors, while 45 gives the zero vector). -/
theorem C10_unit_vectors :
    (∀ r ∈ Rots, ∀ d : Direction, isUnitVec (getVector r d) ∧ getVector r d ≠ ⟨0, 0⟩) ∧
    (∀ (r : Int) (d : Direction), isBodyFixed d = true →
      (getVector r d = ⟨0, 0⟩ ↔ ¬(90 ∣ r))) := by
  constructor
  · decide
  · intro r d hbf
    cases d <;> simp only [isBodyFixed] at hbf <;> try exact absurd hbf (by decide)
    case FRONT =>
      show (if safeMod (r + 0) 360 = 0 then (⟨0, -1⟩ : Vec)
            else if safeMod (r + 0) 360 = 90 then ⟨1, 0⟩
            else if safeMod (r + 0) 360 = 180 then ⟨0, 1⟩
            else if safeMod (r + 0) 360 = 270 then ⟨-1, 0⟩
            else ⟨0, 0⟩) = ⟨0, 0⟩ ↔ ¬(90 ∣ r)
      rw [angle_dispatch_zero_iff, not_iff_not]
      exact safeMod_right_angle_iff r 0 (by norm_num)
    case BACK =>
      show (if safeMod (r + 180) 360 = 0 then (⟨0, -1⟩ : Vec)
            else if safeMod (r + 180) 360 = 90 then ⟨1, 0⟩
            else if safeMod (r + 180) 360 = 180 then ⟨0, 1⟩
            else if safeMod (r + 180) 360 = 270 then ⟨-1, 0⟩
            else ⟨0, 0⟩) = ⟨0, 0⟩ ↔ ¬(90 ∣ r)
      rw [angle_dispatch_zero_iff, not_iff_not]
      exact safeMod_right_angle_iff r 180 (by norm_num)
    case LEFT =>
      show (if safeMod (r + 270) 360 = 0 then (⟨0, -1⟩ : Vec)
            else if safeMod (r + 270) 360 = 90 then ⟨1, 0⟩
            else if safeMod (r + 270) 360 = 180 then ⟨0, 1⟩
            else if safeMod (r + 270) 360 = 270 then ⟨-1, 0⟩
            else ⟨0, 0⟩) = ⟨0, 0⟩ ↔ ¬(90 ∣ r)
      rw [angle_dispatch_zero_iff, not_iff_not]
      exact safeMod_right_angle_iff r 270 (by norm_num)
    case RIGHT =>
      show (if safeMod (r + 90) 360 = 0 then (⟨0, -1⟩ : Vec)
            else if safeMod (r + 90) 360 = 90 then ⟨1, 0⟩
            else if safeMod (r + 90) 360 = 180 then ⟨0, 1⟩
            else if safeMod (r + 90) 360 = 270 then ⟨-1, 0⟩
            else ⟨0, 0⟩) = ⟨0, 0⟩ ↔ ¬(90 ∣ r)
      rw [angle_dispatch_zero_iff, not_iff_not]
      exact safeMod_right_angle_iff r 90 (by norm_num)

/-- C10 witness: the amended statement at rotation 0 with FRONT, and at
rotation 45 (not a multiple of 90) where the fallback fires. -/
theorem C10_witness :
    ((0 : Int) ∈ Rots ∧ isUnitVec (getVector 0 Direction.FRONT)) ∧
    (isBodyFixed Direction.FRONT = true ∧ ¬((90 : Int) ∣ 45) ∧
      getVector 45 Direction.FRONT = ⟨0, 0⟩) :=
  ⟨⟨by decide, (C10_unit_vectors.1 0 (by decide) Direction.FRONT).1⟩,
   ⟨by decide, by decide,
    ((C10_unit_vectors.2 45 Direction.FRONT (by decide)).mpr (by decide))⟩⟩

/-- Once the `failureHandled` guard is set, further ticks leave the game
state untouched and the guard set. -/
theorem timerTicks_after_handled (decay : Rat) (chain : List CommandStep) :
    ∀ (n : Nat) (s : LoopState), s.failureHandled = true →
      (timerTicks decay chain n s).game = s.game ∧
      (timerTicks decay chain n s).failureHandled = true := by
  intro n
  induction n with
  | zero => intro s h; exact ⟨rfl, h⟩
  | succ k ih =>
    intro s h
    have htick : (timerTick decay chain s).game = s.game ∧
        (timerTick decay chain s).failureHandled = true := by
      unfold timerTick
      split_ifs with h1 h2
      · rw [h] at h2; exact absurd h2 (by decide)
      · exact ⟨rfl, h⟩
      · exact ⟨rfl, h⟩
    have := ih (timerTick decay chain s) htick.2
    exact ⟨by rw [timerTicks, this.1, htick.1], by rw [timerTicks]; exact this.2⟩

/-- Invariant of the countdown cycle: either the guard is still clear
and the game state untouched, or the guard is set and exactly one
failure transition has been applied. -/
theorem timerTicks_invariant (decay : Rat) (chain : List CommandStep) (g : GState) :
    ∀ (n : Nat) (s : LoopState),
      ((s.failureHandled = false ∧ s.game = g) ∨
       (s.failureHandled = true ∧ s.game = handleFailure chain g)) →
      ((timerTicks decay chain n s).failureHandled = false ∧
        (timerTicks decay chain n s).game = g) ∨
      ((timerTicks decay chain n s).failureHandled = true ∧
        (timerTicks decay chain n s).game = handleFailure chain g) := by
  intro n
  induction n with
  | zero => intro s h; exact h
  | succ k ih =>
    intro s h
    rw [timerTicks]
    refine ih (timerTick decay chain s) ?_
    rcases h with ⟨hf, hg⟩ | ⟨hf, hg⟩
    · unfold timerTick
      split_ifs with h1
      · right; exact ⟨rfl, by rw [hg]⟩
      · left; exact ⟨hf, hg⟩
    · unfold timerTick
      split_ifs with h1 h2
      · rw [hf] at h2; exact absurd h2 (by decide)
      · right; exact ⟨hf, hg⟩
      · right; exact ⟨hf, hg⟩

/-- C4: within one countdown cycle (the guard starts clear when the
round enters playing), any number of timer ticks applies the failure
state mutation at most once — the resulting game state is either
untouched or exactly one application of handleFailure — and once the
timer is at or below zero the first tick fires it, so it fires exactly
once. -/
theorem C4_failure_fires_once (level : Int) (chain : List CommandStep) (g : GState)
    (t0 : Rat) (n : Nat) :
    ((timerTicks (decayFor level) chain n ⟨t0, false, g⟩).game = g ∨
     (timerTicks (decayFor level) chain n ⟨t0, false, g⟩).game = handleFailure chain g) ∧
    (t0 ≤ 0 → 1 ≤ n →
      (timerTicks (decayFor level) chain n ⟨t0, false, g⟩).game = handleFailure chain g) := by
  constructor
  · have := timerTicks_invariant (decayFor level) chain g n ⟨t0, false, g⟩
      (Or.inl ⟨rfl, rfl⟩)
    rcases this with ⟨_, hg⟩ | ⟨_, hg⟩
    · exact Or.inl hg
    · exact Or.inr hg
  · intro ht hn
    obtain ⟨m, rfl⟩ : ∃ m, n = m + 1 := ⟨n - 1, by omega⟩
    rw [timerTicks]
    have hfire : timerTick (decayFor level) chain ⟨t0, false, g⟩ =
        ⟨0, true, handleFailure chain g⟩ := by
      unfold timerTick
      rw [if_pos ht, if_pos rfl]
    rw [hfire]
    exact (timerTicks_after_handled (decayFor level) chain m
      ⟨0, true, handleFailure chain g⟩ rfl).1

/-- C4 witness: five ticks of an expired level-1 timer apply the failure
mutation exactly once. -/
theorem C4_witness :
    (((timerTicks (decayFor 1) [fsStep] 5 ⟨0, false, baseState⟩).game = baseState ∨
      (timerTicks (decayFor 1) [fsStep] 5 ⟨0, false, baseState⟩).game =
        handleFailure [fsStep] baseState) ∧
     (timerTicks (decayFor 1) [fsStep] 5 ⟨0, false, baseState⟩).game =
        handleFailure [fsStep] baseState) :=
  ⟨(C4_failure_fires_once 1 [fsStep] baseState 0 5).1,
   (C4_failure_fires_once 1 [fsStep] baseState 0 5).2 (by norm_num) (by norm_num)⟩

/-- In practice mode a success leaves score, stability, tag counters,
the practice flag and the level unchanged (the multiplier still moves). -/
theorem handleSuccess_practice (t : Rat) (ch : List CommandStep) (g : GState)
    (hp : g.isPracticeMode = true) (h100 : g.stability ≤ 100) :
    (handleSuccess t ch g).score = g.score ∧
    (handleSuccess t ch g).stability = g.stability ∧
    (handleSuccess t ch g).tags = g.tags ∧
    (handleSuccess t ch g).isPracticeMode = true ∧
    (handleSuccess t ch g).currentLevel = g.currentLevel := by
  have hng : ¬(100 < g.stability) := not_lt.mpr h100
  unfold handleSuccess updateAnalytics
  refine ⟨?_, ?_, ?_, ?_, ?_⟩ <;> simp [hp, hng]

/-- In practice mode a failure leaves score, stability, tag counters,
the practice flag and the level unchanged (the multiplier resets). -/
theorem handleFailure_practice (ch : List CommandStep) (g : GState)
    (hp : g.isPracticeMode = true) (h0 : 0 ≤ g.stability) :
    (handleFailure ch g).score = g.score ∧
    (handleFailure ch g).stability = g.stability ∧
    (handleFailure ch g).tags = g.tags ∧
    (handleFailure ch g).isPracticeMode = true ∧
    (handleFailure ch g).currentLevel = g.currentLevel := by
  have hn0 : ¬(g.stability < 0) := not_lt.mpr h0
  unfold handleFailure updateAnalytics
  refine ⟨?_, ?_, ?_, ?_, ?_⟩ <;> simp [hp, hn0]

/-- C3 counterexample: from a playing practice-mode state with
multiplier 1, a single success event raises the multiplier to 1.5, so
the multiplier is not invariant in practice mode as claimed. -/
theorem C3_counterexample :
    practiceState.isPracticeMode = true ∧
    practiceState.status = GameStatus.playing ∧
    practiceState.multiplier = 1 ∧
    (applyEvents [GameEvent.success 100 [fsStep]] practiceState).multiplier = 3/2 := by
  refine ⟨rfl, rfl, rfl, ?_⟩
  have h1 : (applyEvents [GameEvent.success 100 [fsStep]] practiceState).multiplier =
      min (practiceState.multiplier + 1/2) 5 := rfl
  have h2 : practiceState.multiplier = 1 := rfl
  rw [h1, h2]
  rw [min_eq_left (by norm_num)]
  norm_num

/-- C3 (amended): in practice mode, for every sequence of success and
failure events applied to a state with in-range stability, the score,
the stability, and every analytics tag counter are unchanged (and the
mode stays practice); the multiplier is NOT invariant — it rises by 0.5
per success (capped at 5) and resets to 1 on failure — and the streak
and puzzle identity may change. -/
theorem C3_practice_invariance (g : GState) (evs : List GameEvent)
    (hp : g.isPracticeMode = true) (h0 : 0 ≤ g.stability) (h100 : g.stability ≤ 100) :
    (applyEvents evs g).score = g.score ∧
    (applyEvents evs g).stability = g.stability ∧
    (applyEvents evs g).tags = g.tags ∧
    (applyEvents evs g).isPracticeMode = true := by
  induction evs generalizing g with
  | nil => exact ⟨rfl, rfl, rfl, hp⟩
  | cons e t ih =>
    have hstep : (applyEvent e g).score = g.score ∧
        (applyEvent e g).stability = g.stability ∧
        (applyEvent e g).tags = g.tags ∧
        (applyEvent e g).isPracticeMode = true := by
      cases e with
      | success tm ch =>
        have h := handleSuccess_practice tm ch g hp h100
        exact ⟨h.1, h.2.1, h.2.2.1, h.2.2.2.1⟩
      | failure ch =>
        have h := handleFailure_practice ch g hp h0
        exact ⟨h.1, h.2.1, h.2.2.1, h.2.2.2.1⟩
    have hrec := ih (applyEvent e g) hstep.2.2.2
      (by rw [hstep.2.1]; exact h0) (by rw [hstep.2.1]; exact h100)
    have hfold : applyEvents (e :: t) g = applyEvents t (applyEvent e g) := rfl
    rw [hfold]
    exact ⟨by rw [hrec.1, hstep.1], by rw [hrec.2.1, hstep.2.1],
      by rw [hrec.2.2.1, hstep.2.2.1], hrec.2.2.2⟩

/-- C3 witness: a concrete practice-mode state under a success followed
by a failure keeps score, stability and tag counters. -/
theorem C3_witness :
    (applyEvents [GameEvent.success 80 [fsStep], GameEvent.failure [fsStep]]
        practiceState).score = practiceState.score ∧
    (applyEvents [GameEvent.success 80 [fsStep], GameEvent.failure [fsStep]]
        practiceState).stability = practiceState.stability ∧
    (applyEvents [GameEvent.success 80 [fsStep], GameEvent.failure [fsStep]]
        practiceState).tags = practiceState.tags ∧
    (applyEvents [GameEvent.success 80 [fsStep], GameEvent.failure [fsStep]]
        practiceState).isPracticeMode = true :=
  C3_practice_invariance practiceState
    [GameEvent.success 80 [fsStep], GameEvent.failure [fsStep]]
    rfl (by norm_num [practiceState, baseState, initialState])
    (by norm_num [practiceState, baseState, initialState])

/-- A success always updates the multiplier to `min (m + 0.5) 5`. -/
theorem handleSuccess_multiplier (t : Rat) (ch : List CommandStep) (g : GState) :
    (handleSuccess t ch g).multiplier = min (g.multiplier + 1/2) 5 := rfl

/-- A failure always resets the multiplier to 1. -/
theorem handleFailure_multiplier (ch : List CommandStep) (g : GState) :
    (handleFailure ch g).multiplier = 1 := rfl

/-- The stability a success leaves behind: the level-up reset 50, the
clamp 100, or the gained value itself, which then did not exceed 100. -/
theorem handleSuccess_stability_cases (t : Rat) (ch : List CommandStep) (g : GState) :
    (handleSuccess t ch g).stability = 50 ∨
    (handleSuccess t ch g).stability = 100 ∨
    ((handleSuccess t ch g).stability = g.stability ∧ g.stability ≤ 100) ∨
    ((handleSuccess t ch g).stability = g.stability + 15 ∧ g.stability + 15 ≤ 100) := by
  unfold handleSuccess updateAnalytics
  dsimp only
  cases hp : g.isPracticeMode
  · simp only [hp, Bool.not_false, Bool.not_true, Bool.true_and, Bool.false_and,
      decide_eq_true_eq, Bool.false_eq_true, eq_self_iff_true, if_true, if_false, add_zero]
    split_ifs with c2 c3
    · left; rfl
    · right; left; rfl
    · right; right; right; exact ⟨rfl, le_of_not_lt c3⟩
  · simp only [hp, Bool.not_false, Bool.not_true, Bool.true_and, Bool.false_and,
      decide_eq_true_eq, Bool.false_eq_true, eq_self_iff_true, if_true, if_false, add_zero]
    split_ifs with c2
    · right; left; rfl
    · right; right; left; exact ⟨rfl, le_of_not_lt c2⟩

/-- A success keeps the level or raises it by one. -/
theorem handleSuccess_level_cases (t : Rat) (ch : List CommandStep) (g : GState) :
    (handleSuccess t ch g).currentLevel = g.currentLevel ∨
    (handleSuccess t ch g).currentLevel = g.currentLevel + 1 := by
  unfold handleSuccess updateAnalytics
  dsimp only
  split_ifs <;> simp

/-- A failure keeps stability inside [0, 100] whenever it started there. -/
theorem handleFailure_stability_bounds (ch : List CommandStep) (g : GState)
    (h0 : 0 ≤ g.stability) (h100 : g.stability ≤ 100) :
    0 ≤ (handleFailure ch g).stability ∧ (handleFailure ch g).stability ≤ 100 := by
  unfold handleFailure updateAnalytics
  dsimp only
  split_ifs with c1 c2 c3 <;> constructor <;> first
    | linarith
    | (split_ifs <;> linarith)
    | norm_num

/-- A failure keeps the level, or lowers it by one only from above 1. -/
theorem handleFailure_level_cases (ch : List CommandStep) (g : GState) :
    (handleFailure ch g).currentLevel = g.currentLevel ∨
    ((handleFailure ch g).currentLevel = g.currentLevel - 1 ∧ 1 < g.currentLevel) := by
  unfold handleFailure updateAnalytics
  dsimp only
  cases hp : g.isPracticeMode <;>
    simp only [hp, Bool.not_false, Bool.not_true, Bool.true_and, Bool.false_and,
      Bool.and_eq_true, decide_eq_true_eq, Bool.false_eq_true, eq_self_iff_true,
      if_true, if_false, sub_zero]
  · split_ifs with c1
    · exact Or.inr ⟨rfl, c1.2⟩
    · exact Or.inl rfl
  · exact Or.inl trivial

/-- C5: every transition of the state machine preserves the bounds
stability ∈ [0,100], multiplier ∈ [1,5], level ≥ 1, and a failure at
level 1 never decrements the level. -/
theorem C5_invariant (g : GState) (h : Invariant g) :
    (∀ tr : Transition, Invariant (applyTransition tr g)) ∧
    (∀ ch : List CommandStep, g.currentLevel = 1 →
      (handleFailure ch g).currentLevel = 1) := by
  obtain ⟨h0, h100, hm1, hm5, hl⟩ := h
  constructor
  · intro tr
    cases tr with
    | start =>
      refine ⟨h0, h100, ?_, ?_, hl⟩
      · show (1:Rat) ≤ 1; norm_num
      · show (1:Rat) ≤ 5; norm_num
    | stop now => exact ⟨h0, h100, hm1, hm5, hl⟩
    | toggle => exact ⟨h0, h100, hm1, hm5, hl⟩
    | success t ch =>
      show Invariant (handleSuccess t ch g)
      have hmul := handleSuccess_multiplier t ch g
      have hst := handleSuccess_stability_cases t ch g
      have hlv := handleSuccess_level_cases t ch g
      refine ⟨?_, ?_, ?_, ?_, ?_⟩
      · rcases hst with h1 | h1 | ⟨h1, hb⟩ | ⟨h1, hb⟩ <;> rw [h1] <;> linarith
      · rcases hst with h1 | h1 | ⟨h1, hb⟩ | ⟨h1, hb⟩ <;> rw [h1] <;> linarith
      · rw [hmul]; exact le_min (by linarith) (by norm_num)
      · rw [hmul]; exact min_le_right _ _
      · rcases hlv with h1 | h1 <;> rw [h1] <;> omega
    | failure ch =>
      show Invariant (handleFailure ch g)
      have hmul := handleFailure_multiplier ch g
      have hst := handleFailure_stability_bounds ch g h0 h100
      have hlv := handleFailure_level_cases ch g
      refine ⟨hst.1, hst.2, ?_, ?_, ?_⟩
      · rw [hmul]
      · rw [hmul]; norm_num
      · rcases hlv with h1 | ⟨h1, h2⟩ <;> rw [h1] <;> omega
  · intro ch h1
    rcases handleFailure_level_cases ch g with h2 | ⟨_, h3⟩
    · rw [h2, h1]
    · omega

/-- C5 witness: the bounds hold after each transition from a concrete
in-range playing state, and a level-1 failure keeps the level at 1. -/
theorem C5_witness :
    Invariant (applyTransition (Transition.failure [fsStep])
      { baseState with currentLevel := 1 }) ∧
    (handleFailure [fsStep] { baseState with currentLevel := 1 }).currentLevel = 1 :=
  ⟨(C5_invariant { baseState with currentLevel := 1 }
      (by norm_num [Invariant, baseState, initialState])).1
      (Transition.failure [fsStep]),
   (C5_invariant { baseState with currentLevel := 1 }
      (by norm_num [Invariant, baseState, initialState])).2 [fsStep] rfl⟩

/-- `Rat.floor`, used by the embedding for `Math.floor`, agrees with the
floor of the `FloorRing` instance. -/
theorem rat_floor_eq_intFloor (q : Rat) : q.floor = ⌊q⌋ := rfl

/-- C6 counterexample: from a non-practice playing state at stability
85, a correct selection does not set stability to `min (85+15) 100 =
100`; the code instead takes the level-up branch, resetting stability
to 50 and raising the level, so "rises by 15 (clamped at 100)" fails. -/
theorem C6_counterexample :
    ({ baseState with stability := 85 } : GState).isPracticeMode = false ∧
    ({ baseState with stability := 85 } : GState).stability = 85 ∧
    (handleSuccess 80 [fsStep] { baseState with stability := 85 }).stability = 50 ∧
    (handleSuccess 80 [fsStep] { baseState with stability := 85 }).currentLevel = 4 ∧
    min ((85 : Rat) + 15) 100 = 100 ∧ (50 : Rat) ≠ 100 := by
  refine ⟨rfl, rfl, ?_, ?_, ?_, by norm_num⟩
  · unfold handleSuccess updateAnalytics
    norm_num [baseState, initialState]
  · unfold handleSuccess updateAnalytics
    norm_num [baseState, initialState]
  · rw [min_eq_right (by norm_num)]

/-- C6 (amended): on a correct selection in non-practice mode, the
floored reward `(100 + floor(timer)) * multiplier + level * 50` is added
to the score, the streak increments, the multiplier rises by 0.5
clamped at 5, and stability rises by 15 with no level change only while
the result stays below 100; once stability + 15 reaches 100 the
level-up branch fires instead, resetting stability to 50 and raising
the level by one (stability is never clamped at 100 on this path). -/
theorem C6_reward (g : GState) (t : Rat) (ch : List CommandStep)
    (hnp : g.isPracticeMode = false) :
    (handleSuccess t ch g).score =
      ((g.score : Rat) + ((100 + (t.floor : Rat)) * g.multiplier +
        (g.currentLevel : Rat) * 50)).floor ∧
    (handleSuccess t ch g).streak = g.streak + 1 ∧
    (handleSuccess t ch g).multiplier = min (g.multiplier + 1/2) 5 ∧
    (g.stability + 15 < 100 →
      (handleSuccess t ch g).stability = g.stability + 15 ∧
      (handleSuccess t ch g).currentLevel = g.currentLevel) ∧
    (100 ≤ g.stability + 15 →
      (handleSuccess t ch g).stability = 50 ∧
      (handleSuccess t ch g).currentLevel = g.currentLevel + 1) := by
  unfold handleSuccess updateAnalytics
  dsimp only
  simp only [hnp, Bool.not_false, Bool.true_and, Bool.false_eq_true, if_false,
    decide_eq_true_eq]
  refine ⟨trivial, trivial, trivial, ?_, ?_⟩
  · intro hlt
    have hn : ¬(100 ≤ g.stability + 15) := not_le.mpr hlt
    have hn2 : ¬(100 < g.stability + 15) := by linarith
    rw [if_neg hn, if_neg hn2, if_neg hn]
    exact ⟨rfl, rfl⟩
  · intro hge
    rw [if_pos hge, if_pos hge]
    exact ⟨rfl, rfl⟩

/-- C6 witness: the concrete scenario of the claim — level 3, stability
50, multiplier 1, 80% timer remaining — gains exactly 330 score,
stability 65, level unchanged. -/
theorem C6_witness :
    baseState.currentLevel = 3 ∧ baseState.stability = 50 ∧
    baseState.multiplier = 1 ∧ baseState.isPracticeMode = false ∧
    (handleSuccess 80 [fsStep] baseState).score = baseState.score + 330 ∧
    (handleSuccess 80 [fsStep] baseState).stability = 65 ∧
    (handleSuccess 80 [fsStep] baseState).currentLevel = 3 := by
  have h := C6_reward baseState 80 [fsStep] rfl
  refine ⟨rfl, rfl, rfl, rfl, ?_, ?_, ?_⟩
  · rw [h.1]
    norm_num [baseState, initialState, rat_floor_eq_intFloor]
  · rw [(h.2.2.2.1 (by norm_num [baseState, initialState])).1]
    norm_num [baseState, initialState]
  · rw [(h.2.2.2.1 (by norm_num [baseState, initialState])).2]
    rfl


/-- The three tag keys of one instruction are pairwise distinct, for
every protocol/frame/direction combination. -/
theorem stepKeys_nodup (s : CommandStep) : (stepKeys s).Nodup := by
  have h : ∀ (p : ProtocolType) (f : FrameType) (d : Direction),
      [protoKey p, frameKey f, complexKey p d].Nodup := by decide
  exact h s.protocol s.frame s.dir

/-- One pass of the `forEach` body changes exactly the three keys of
the instruction: attempts rise by one there (failures too on a loss)
and every other key is untouched. -/
theorem recordStep_counts (o : Outcome) (m : TagMap) (s : CommandStep) (k : String) :
    ((recordStep o m s) k).attempts =
      (m k).attempts + (if k ∈ stepKeys s then 1 else 0) ∧
    ((recordStep o m s) k).failures =
      (m k).failures + (if o = Outcome.loss ∧ k ∈ stepKeys s then 1 else 0) := by
  have hnd := stepKeys_nodup s
  simp only [stepKeys, List.nodup_cons, List.mem_cons, List.mem_singleton,
    List.not_mem_nil, or_false, not_or, List.nodup_nil, and_true] at hnd
  obtain ⟨⟨hpf, hpc⟩, hfc, -⟩ := hnd
  unfold recordStep bumpTag
  by_cases h1 : k = protoKey s.protocol <;>
    by_cases h2 : k = frameKey s.frame <;>
      by_cases h3 : k = complexKey s.protocol s.dir
  · exact absurd (h1.symm.trans h2) hpf
  · exact absurd (h1.symm.trans h2) hpf
  · exact absurd (h1.symm.trans h3) hpc
  · simp [stepKeys, h1, h2, h3, hpf, hpc, hfc,
      Ne.symm hpf, Ne.symm hpc, Ne.symm hfc] <;> cases o <;> simp
  · exact absurd (h2.symm.trans h3) hfc
  · simp [stepKeys, h1, h2, h3, hpf, hpc, hfc,
      Ne.symm hpf, Ne.symm hpc, Ne.symm hfc] <;> cases o <;> simp
  · simp [stepKeys, h1, h2, h3, hpf, hpc, hfc,
      Ne.symm hpf, Ne.symm hpc, Ne.symm hfc] <;> cases o <;> simp
  · simp [stepKeys, h1, h2, h3, hpf, hpc, hfc,
      Ne.symm hpf, Ne.symm hpc, Ne.symm hfc]

/-- The whole `chain.forEach` loop adds, at every key, one attempt per
instruction whose key set contains that key (and one failure per such
instruction on a loss). -/
theorem recordChain_counts (o : Outcome) (ch : List CommandStep) (m : TagMap) (k : String) :
    ((recordChain o m ch) k).attempts =
      (m k).attempts + ch.countP (fun s => decide (k ∈ stepKeys s)) ∧
    ((recordChain o m ch) k).failures =
      (m k).failures +
        (if o = Outcome.loss then ch.countP (fun s => decide (k ∈ stepKeys s)) else 0) := by
  induction ch generalizing m with
  | nil => simp [recordChain]
  | cons s t ih =>
    have hs := recordStep_counts o m s k
    have ht := ih (recordStep o m s)
    have hfold : recordChain o m (s :: t) = recordChain o (recordStep o m s) t := rfl
    rw [hfold]
    constructor
    · rw [ht.1, hs.1, List.countP_cons]
      by_cases hk : k ∈ stepKeys s <;> simp [hk] <;> omega
    · rw [ht.2, hs.2, List.countP_cons]
      cases o <;> by_cases hk : k ∈ stepKeys s <;> simp [hk] <;> omega

/-- C8: recordRound (the `updateAnalytics` fold) increments attempts —
and failures exactly on a loss — under the three key families of each
instruction (protocol alone, frame alone, protocol-direction compound);
each instruction touches exactly its three pairwise-distinct keys; and
the families never collide: a protocol key is never a frame key or a
compound key, a frame key is never a compound key, and two compound
keys agree only for the same protocol and direction. -/
theorem C8_analytics_keys :
    (∀ (o : Outcome) (m : TagMap) (ch : List CommandStep) (k : String),
      ((recordChain o m ch) k).attempts =
        (m k).attempts + ch.countP (fun s => decide (k ∈ stepKeys s)) ∧
      ((recordChain o m ch) k).failures =
        (m k).failures +
          (if o = Outcome.loss then ch.countP (fun s => decide (k ∈ stepKeys s)) else 0)) ∧
    (∀ s : CommandStep, (stepKeys s).Nodup) ∧
    (∀ (pa : ProtocolType) (fa : FrameType) (pb : ProtocolType) (db : Direction),
      protoKey pa ≠ frameKey fa ∧ protoKey pa ≠ complexKey pb db ∧
      frameKey fa ≠ complexKey pb db) ∧
    (∀ (pa : ProtocolType) (da : Direction) (pb : ProtocolType) (db : Direction),
      complexKey pa da = complexKey pb db → pa = pb ∧ da = db) := by
  refine ⟨fun o m ch k => recordChain_counts o ch m k, stepKeys_nodup, ?_, ?_⟩
  · decide
  · decide

/-- C8 witness: the loss fold over the one-instruction failsafe chain
adds one attempt at the protocol key, and the key families are
collision-free at a concrete compound key. -/
theorem C8_witness :
    ((recordChain Outcome.loss zeroTags [fsStep]) "DIRECT").attempts =
      (zeroTags "DIRECT").attempts +
        List.countP (fun s => decide ("DIRECT" ∈ stepKeys s)) [fsStep] ∧
    (stepKeys fsStep).Nodup ∧
    (complexKey ProtocolType.DIRECT Direction.NORTH =
        complexKey ProtocolType.DIRECT Direction.NORTH →
      ProtocolType.DIRECT = ProtocolType.DIRECT ∧
      Direction.NORTH = Direction.NORTH) :=
  ⟨(C8_analytics_keys.1 Outcome.loss zeroTags [fsStep] "DIRECT").1,
   C8_analytics_keys.2.1 fsStep,
   fun h => C8_analytics_keys.2.2.2 ProtocolType.DIRECT Direction.NORTH
     ProtocolType.DIRECT Direction.NORTH h⟩


/-- C9 counterexample: the input "3.9" is numeric but not an integer,
so by the claim it should be a no-op; the code parses its integer
prefix with parseInt and sets the level to 3. -/
theorem C9_counterexample :
    jsParseInt "3.9" = some 3 ∧
    initialState.currentLevel = 1 ∧
    (manualSetLevel (some "3.9") initialState).currentLevel = 3 :=
  ⟨rfl, rfl, rfl⟩

/-- C9 (amended): setLevel parses its input with parseInt.  A cancelled
prompt, an empty or non-numeric input (NaN), or a parsed value outside
[1,99] leaves the state unchanged; a parsed value n in [1,99] makes the
level n (resetting the score to 0) — so a non-integer numeric string
such as "3.9" sets the level to its integer prefix rather than being
rejected. -/
theorem C9_setLevel (g : GState) (s : String) :
    manualSetLevel none g = g ∧
    (jsParseInt s = none → manualSetLevel (some s) g = g) ∧
    (∀ n : Int, jsParseInt s = some n →
      (1 ≤ n ∧ n ≤ 99 →
        (manualSetLevel (some s) g).currentLevel = n ∧
        (manualSetLevel (some s) g).score = 0 ∧
        (manualSetLevel (some s) g).stability = g.stability) ∧
      (¬(1 ≤ n ∧ n ≤ 99) → manualSetLevel (some s) g = g)) := by
  refine ⟨rfl, ?_, ?_⟩
  · intro h
    by_cases he : s = ""
    · simp [manualSetLevel, he]
    · simp [manualSetLevel, he, h]
  · intro n h
    have he : s ≠ "" := by
      intro hs
      rw [hs, show jsParseInt "" = none from rfl] at h
      exact Option.noConfusion h
    constructor
    · intro hn
      have hcond : 0 < n ∧ n < 100 := ⟨by omega, by omega⟩
      simp [manualSetLevel, he, h, hcond]
    · intro hn
      have hcond : ¬(0 < n ∧ n < 100) := by omega
      simp [manualSetLevel, he, h, hcond]

/-- C9 witness: the amended behavior at the concrete input "3.9". -/
theorem C9_witness :
    (manualSetLevel (some "3.9") initialState).currentLevel = 3 ∧
    (manualSetLevel (some "3.9") initialState).score = 0 ∧
    (manualSetLevel (some "3.9") initialState).stability = initialState.stability :=
  ((C9_setLevel initialState "3.9").2.2 3 rfl).1 (by norm_num)


/-- One unfolding of the chain-building loop: some instruction `cs` is
produced, the accumulated position advances by its resolved
displacement, and the loop either trips the bounds check or recurses. -/
theorem buildChain_succ (rot : Int) (ai aa an : Bool) (step : Nat → StepChoice)
    (i r : Nat) (x y : Int) :
    ∃ cs : CommandStep,
      buildChain rot ai aa an step i (r + 1) x y =
        if x + (stepVec rot cs).dx < 0 ∨ GRID_SIZE ≤ x + (stepVec rot cs).dx ∨
            y + (stepVec rot cs).dy < 0 ∨ GRID_SIZE ≤ y + (stepVec rot cs).dy then
          ⟨[cs], x + (stepVec rot cs).dx, y + (stepVec rot cs).dy, true⟩
        else
          ⟨cs :: (buildChain rot ai aa an step (i + 1) r (x + (stepVec rot cs).dx)
              (y + (stepVec rot cs).dy)).chain,
            (buildChain rot ai aa an step (i + 1) r (x + (stepVec rot cs).dx)
              (y + (stepVec rot cs).dy)).x,
            (buildChain rot ai aa an step (i + 1) r (x + (stepVec rot cs).dx)
              (y + (stepVec rot cs).dy)).y,
            (buildChain rot ai aa an step (i + 1) r (x + (stepVec rot cs).dx)
              (y + (stepVec rot cs).dy)).pathFailed⟩ := by
  refine ⟨⟨(if aa && (step i).absRand then
              absoluteDirs.getD ((step i).dirR % 4) Direction.NORTH
            else relativeDirs.getD ((step i).dirR % 4) Direction.FRONT),
           (if aa && (step i).absRand then FrameType.ABSOLUTE else FrameType.RELATIVE),
           (if ai && (step i).invRand then ProtocolType.INVERTED else ProtocolType.DIRECT),
           (step i).idStr,
           (if an && (step i).interfOn then
              (if (step i).interfPick then invertedColor else directColor)
            else (if (if ai && (step i).invRand then ProtocolType.INVERTED
                      else ProtocolType.DIRECT) = ProtocolType.DIRECT then directColor
                  else invertedColor))⟩, ?_⟩
  rfl

/-- Soundness of the inner chain-building loop: when no step tripped the
bounds check, every accumulated prefix position of the returned chain
lies inside the grid. -/
theorem buildChain_sound (rot : Int) (ai aa an : Bool) (step : Nat → StepChoice) :
    ∀ (n i : Nat) (x y : Int),
      (buildChain rot ai aa an step i n x y).pathFailed = false →
      ∀ q ∈ pathPositions rot x y (buildChain rot ai aa an step i n x y).chain, inGrid q := by
  intro n
  induction n with
  | zero =>
    intro i x y _ q hq
    simp [buildChain, pathPositions] at hq
  | succ r ih =>
    intro i x y h q hq
    obtain ⟨cs, heq⟩ := buildChain_succ rot ai aa an step i r x y
    rw [heq] at h hq
    by_cases hc : x + (stepVec rot cs).dx < 0 ∨ GRID_SIZE ≤ x + (stepVec rot cs).dx ∨
        y + (stepVec rot cs).dy < 0 ∨ GRID_SIZE ≤ y + (stepVec rot cs).dy
    · rw [if_pos hc] at h
      exact absurd h (by simp)
    · rw [if_neg hc] at h hq
      dsimp only at h hq
      simp only [pathPositions] at hq
      rcases List.mem_cons.mp hq with hq1 | hq2
      · subst hq1
        simp only [GRID_SIZE] at hc
        push_neg at hc
        simp only [inGrid, GRID_SIZE]
        exact ⟨by omega, by omega, by omega, by omega⟩
      · exact ih (i + 1) _ _ h q hq2

/-- The attempt in the shape its acceptance test is stated in: for some
anchor, rotation and chain-building result, the attempt returns the
assembled puzzle when the test passes and nothing otherwise. -/
theorem runAttempt_eq (level : Int) (c : AttemptChoice) :
    ∃ (ax ay rot : Int) (n : Nat) (res : ChainResult),
      res = buildChain rot (decide (4 ≤ level)) (decide (7 ≤ level))
        (decide (12 ≤ level)) c.step 0 n ax ay ∧
      runAttempt level c =
        (if res.pathFailed = false ∧ (res.x ≠ ax ∨ res.y ≠ ay) then
          some ⟨⟨ax, ay⟩, rot, res.chain, ⟨res.x, res.y⟩⟩
        else none) :=
  ⟨((c.axR % safeSizeFor level : Nat) : Int) + (paddingFor level : Int),
   ((c.ayR % safeSizeFor level : Nat) : Int) + (paddingFor level : Int),
   ((c.rotR % 4 : Nat) : Int) * 90, chainLengthFor level, _, rfl, rfl⟩

/-- Soundness of one accepted search attempt: the produced puzzle has a
target different from its anchor and an everywhere-in-grid prefix
path. -/
theorem runAttempt_sound (level : Int) (c : AttemptChoice) (p : Puzzle)
    (h : runAttempt level c = some p) :
    p.target ≠ p.anchor ∧
    ∀ q ∈ pathPositions p.rotation p.anchor.x p.anchor.y p.chain, inGrid q := by
  obtain ⟨ax, ay, rot, n, res, hres, heq⟩ := runAttempt_eq level c
  rw [heq] at h
  by_cases hcc : res.pathFailed = false ∧ (res.x ≠ ax ∨ res.y ≠ ay)
  · rw [if_pos hcc] at h
    injection h with h
    subst h
    dsimp only
    constructor
    · intro heq2
      rcases hcc.2 with h1 | h1
      · exact h1 (congrArg Cell.x heq2)
      · exact h1 (congrArg Cell.y heq2)
    · subst hres
      exact buildChain_sound _ _ _ _ _ _ _ _ _ hcc.1
  · rw [if_neg hcc] at h
    exact Option.noConfusion h

/-- Every puzzle the search loop returns was produced by some accepted
attempt. -/
theorem genLoop_some (level : Int) (o : Nat → AttemptChoice) :
    ∀ (fuel i : Nat) (p : Puzzle), genLoop level o i fuel = some p →
      ∃ c, runAttempt level c = some p := by
  intro fuel
  induction fuel with
  | zero => intro i p h; exact Option.noConfusion h
  | succ f ih =>
    intro i p h
    rw [genLoop] at h
    cases hr : runAttempt level (o i) with
    | some q =>
      rw [hr] at h
      refine ⟨o i, ?_⟩
      rw [hr]
      exact h
    | none =>
      rw [hr] at h
      exact ih (i + 1) p h

/-- The failsafe puzzle also has a distinct target and an in-grid path. -/
theorem failsafePuzzle_sound :
    failsafePuzzle.target ≠ failsafePuzzle.anchor ∧
    ∀ q ∈ pathPositions failsafePuzzle.rotation failsafePuzzle.anchor.x
        failsafePuzzle.anchor.y failsafePuzzle.chain, inGrid q := by
  constructor
  · intro h
    exact absurd (congrArg Cell.y h) (by decide)
  · intro q hq
    rcases List.mem_cons.mp hq with h1 | h1
    · subst h1; decide
    · exact absurd h1 (List.not_mem_nil q)

/-- C1: for every level in [1,99] and every stream of random draws, the
puzzle produced by generateLevel has a target cell different from its
anchor cell, and every prefix-sum position of its chain (accumulating
each instruction's resolved displacement from the anchor) lies inside
the 7x7 grid. -/
theorem C1_puzzle_valid (level : Int) (h1 : 1 ≤ level) (h99 : level ≤ 99)
    (oracle : Nat → AttemptChoice) :
    (generateLevel level oracle).target ≠ (generateLevel level oracle).anchor ∧
    ∀ q ∈ pathPositions (generateLevel level oracle).rotation
        (generateLevel level oracle).anchor.x (generateLevel level oracle).anchor.y
        (generateLevel level oracle).chain, inGrid q := by
  unfold generateLevel
  cases hg : genLoop level oracle 0 MAX_ATTEMPTS with
  | none => simpa using failsafePuzzle_sound
  | some p =>
    obtain ⟨c, hc⟩ := genLoop_some level oracle MAX_ATTEMPTS 0 p hg
    simpa using runAttempt_sound level c p hc

/-- C1 witness: the validity at level 1 on a concrete oracle. -/
theorem C1_witness :
    (1 : Int) ≤ 1 ∧ (1 : Int) ≤ 99 ∧
    ((generateLevel 1 failOracle).target ≠ (generateLevel 1 failOracle).anchor ∧
     ∀ q ∈ pathPositions (generateLevel 1 failOracle).rotation
        (generateLevel 1 failOracle).anchor.x (generateLevel 1 failOracle).anchor.y
        (generateLevel 1 failOracle).chain, inGrid q) :=
  ⟨by norm_num, by norm_num, C1_puzzle_valid 1 (by norm_num) (by norm_num) failOracle⟩

/-- The search loop only reads oracle draws inside its fuel window. -/
theorem genLoop_congr (level : Int) (o1 o2 : Nat → AttemptChoice) :
    ∀ (fuel i : Nat), (∀ j, i ≤ j → j < i + fuel → o1 j = o2 j) →
      genLoop level o1 i fuel = genLoop level o2 i fuel := by
  intro fuel
  induction fuel with
  | zero => intro i _; rfl
  | succ f ih =>
    intro i h
    have h0 : o1 i = o2 i := h i le_rfl (by omega)
    rw [genLoop, genLoop, h0]
    cases hr : runAttempt level (o2 i) with
    | some q => rfl
    | none => exact ih (i + 1) (fun j hj1 hj2 => h j (by omega) (by omega))

/-- When every attempt in the window is rejected, the loop returns
nothing. -/
theorem genLoop_exhaust (level : Int) (o : Nat → AttemptChoice) :
    ∀ (fuel i : Nat), (∀ j, i ≤ j → j < i + fuel → runAttempt level (o j) = none) →
      genLoop level o i fuel = none := by
  intro fuel
  induction fuel with
  | zero => intro i _; rfl
  | succ f ih =>
    intro i h
    rw [genLoop, h i le_rfl (by omega)]
    exact ih (i + 1) (fun j hj1 hj2 => h j (by omega) (by omega))

/-- C2: generateLevel consults at most the first 500 attempts of its
random stream (two oracles agreeing there produce the same puzzle, for
every level), and when all 500 attempts are rejected it returns exactly
the documented failsafe puzzle: anchor (3,3), rotation 0, one
DIRECT/ABSOLUTE NORTH instruction, target (3,2). -/
theorem C2_termination_failsafe (level : Int) (o1 o2 : Nat → AttemptChoice)
    (hagree : ∀ j, j < 500 → o1 j = o2 j) :
    generateLevel level o1 = generateLevel level o2 ∧
    ((∀ j, j < 500 → runAttempt level (o1 j) = none) →
      generateLevel level o1 =
        ⟨⟨3, 3⟩, 0, [⟨Direction.NORTH, FrameType.ABSOLUTE, ProtocolType.DIRECT,
          "failsafe", "#00ff9d"⟩], ⟨3, 2⟩⟩) := by
  constructor
  · unfold generateLevel MAX_ATTEMPTS
    rw [genLoop_congr level o1 o2 500 0 (fun j hj1 hj2 => hagree j (by omega))]
  · intro hfail
    unfold generateLevel MAX_ATTEMPTS
    rw [genLoop_exhaust level o1 500 0 (fun j hj1 hj2 => hfail j (by omega))]
    rfl

set_option maxRecDepth 20000 in
/-- Every attempt of the all-zero oracle is rejected at level 1: the
anchor is (0,0) and the single FRONT step at rotation 0 leaves the
grid. -/
theorem failOracle_rejected (j : Nat) : runAttempt 1 (failOracle j) = none := by
  show runAttempt 1 ⟨0, 0, 0, fun _ => ⟨false, 0, false, false, false, ""⟩⟩ = none
  rfl

/-- C2 witness: at level 1 with the all-zero oracle every attempt fails
and generateLevel returns the documented failsafe puzzle. -/
theorem C2_witness :
    generateLevel 1 failOracle = generateLevel 1 failOracle ∧
    generateLevel 1 failOracle =
      ⟨⟨3, 3⟩, 0, [⟨Direction.NORTH, FrameType.ABSOLUTE, ProtocolType.DIRECT,
        "failsafe", "#00ff9d"⟩], ⟨3, 2⟩⟩ :=
  ⟨(C2_termination_failsafe 1 failOracle failOracle (fun j _ => rfl)).1,
   (C2_termination_failsafe 1 failOracle failOracle (fun j _ => rfl)).2
     (fun j _ => failOracle_rejected j)⟩

end DeicticVoid
